import Mathlib

/-!
Verification of the SatNOGS proxy Netlify function
(netlify/functions/satnogs-proxy.js, the full Link-forwarding handler).

Strings are modelled as lists of characters, so that every operation the
handler performs (splitting a path on slashes, joining segments, substring
tests, JSON serialization) is an executable structural function.  The
platform JSON library (JSON.stringify / JSON.parse) is modelled by an
executable serializer and an executable parser over a JSON value type with
integer numbers, and the round-trip theorem connecting them is proved.
-/

namespace SatnogsProxy

/-- The double-quote character, written by code point to keep it out of literals. -/
def quoteC : Char := Char.ofNat 34

/-- The backslash character. -/
def bslash : Char := Char.ofNat 92

/-- The opening curly-brace character. -/
def lbrace : Char := Char.ofNat 123

/-- The closing curly-brace character. -/
def rbrace : Char := Char.ofNat 125

/-- The single-quote character. -/
def squote : Char := Char.ofNat 39

/-- Shorthand turning a string literal into the character-list representation. -/
def chars (s : String) : List Char := s.toList

/-- JSON values, as produced by the platform JSON parser.  Numbers are
restricted to integers, which covers the status codes and payloads the
proxy manipulates. -/
inductive Json where
  | null : Json
  | bool (b : Bool) : Json
  | num (n : Int) : Json
  | str (s : List Char) : Json
  | arr (elems : List Json) : Json
  | obj (members : List (List Char × Json)) : Json
deriving Repr

/-- Character for a single decimal digit. -/
def digitChar (d : Nat) : Char := Char.ofNat (48 + d)

/-- Accumulator loop producing the decimal digits of a number, most
significant first, with explicit fuel so that it is structurally recursive. -/
def natCharsAux : Nat → Nat → List Char → List Char
  | 0, _, acc => acc
  | _ + 1, 0, acc => acc
  | fuel + 1, n + 1, acc =>
      natCharsAux fuel ((n + 1) / 10) (digitChar ((n + 1) % 10) :: acc)

/-- Decimal digit string of a positive number (empty for zero). -/
def natCharsCore (n : Nat) : List Char := natCharsAux (n + 1) n []

/-- Decimal representation of a natural number, as JavaScript prints it. -/
def natChars (n : Nat) : List Char :=
  if n = 0 then ['0'] else natCharsCore n

/-- Decimal representation of an integer, as JavaScript prints it. -/
def intChars (n : Int) : List Char :=
  if n < 0 then '-' :: natChars n.natAbs else natChars n.toNat

/-- Escape of one character inside a JSON string literal. -/
def escChar (c : Char) : List Char :=
  if c = quoteC then [bslash, quoteC]
  else if c = bslash then [bslash, bslash]
  else if c = Char.ofNat 10 then [bslash, 'n']
  else if c = Char.ofNat 13 then [bslash, 'r']
  else if c = Char.ofNat 9 then [bslash, 't']
  else [c]

/-- Escape of a whole string body. -/
def escString : List Char → List Char
  | [] => []
  | c :: cs => escChar c ++ escString cs

/-- Quoted JSON string literal. -/
def strLit (s : List Char) : List Char := quoteC :: escString s ++ [quoteC]

mutual

/-- Serialization of a JSON value, modelling JSON.stringify. -/
def stringifyV : Json → List Char
  | .null => chars "null"
  | .bool true => chars "true"
  | .bool false => chars "false"
  | .num n => intChars n
  | .str s => strLit s
  | .arr xs => '[' :: stringifyElems xs ++ [']']
  | .obj ms => lbrace :: stringifyMembers ms ++ [rbrace]

/-- Serialization of comma-separated array elements. -/
def stringifyElems : List Json → List Char
  | [] => []
  | [x] => stringifyV x
  | x :: y :: xs => stringifyV x ++ ',' :: stringifyElems (y :: xs)

/-- Serialization of comma-separated object members. -/
def stringifyMembers : List (List Char × Json) → List Char
  | [] => []
  | [(k, v)] => strLit k ++ ':' :: stringifyV v
  | (k, v) :: m :: ms => strLit k ++ ':' :: stringifyV v ++ ',' :: stringifyMembers (m :: ms)

end

/-- Unescape of the character following a backslash in a JSON string. -/
def unescChar (e : Char) : Option Char :=
  if e = quoteC then some quoteC
  else if e = bslash then some bslash
  else if e = 'n' then some (Char.ofNat 10)
  else if e = 'r' then some (Char.ofNat 13)
  else if e = 't' then some (Char.ofNat 9)
  else none

/-- Parse the body of a JSON string literal after the opening quote,
returning the decoded characters and the remaining input. -/
def parseStr : List Char → Option (List Char × List Char)
  | [] => none
  | c :: cs =>
    if c = quoteC then some ([], cs)
    else if c = bslash then
      match cs with
      | [] => none
      | e :: es =>
        match unescChar e with
        | none => none
        | some d =>
          match parseStr es with
          | some (s, r) => some (d :: s, r)
          | none => none
    else
      match parseStr cs with
      | some (s, r) => some (c :: s, r)
      | none => none

/-- Consume a run of decimal digits, folding them into an accumulator. -/
def parseDigits : List Char → Nat → Nat × List Char
  | [], acc => (acc, [])
  | c :: cs, acc =>
    if c.isDigit then parseDigits cs (acc * 10 + (c.toNat - 48)) else (acc, c :: cs)

/-- Consume an expected literal sequence of characters. -/
def dropLit : List Char → List Char → Option (List Char)
  | [], cs => some cs
  | _ :: _, [] => none
  | p :: ps, c :: cs => if c = p then dropLit ps cs else none

mutual

/-- Fueled JSON value parser, modelling JSON.parse. -/
def parseVal : Nat → List Char → Option (Json × List Char)
  | 0, _ => none
  | _ + 1, [] => none
  | fuel + 1, c :: cs =>
    if c = 'n' then
      match dropLit ['u', 'l', 'l'] cs with
      | some r => some (.null, r)
      | none => none
    else if c = 't' then
      match dropLit ['r', 'u', 'e'] cs with
      | some r => some (.bool true, r)
      | none => none
    else if c = 'f' then
      match dropLit ['a', 'l', 's', 'e'] cs with
      | some r => some (.bool false, r)
      | none => none
    else if c = quoteC then
      match parseStr cs with
      | some (s, r) => some (.str s, r)
      | none => none
    else if c = '[' then
      match cs with
      | [] => none
      | d :: ds =>
        if d = ']' then some (.arr [], ds)
        else
          match parseElems fuel (d :: ds) with
          | some (xs, r) => some (.arr xs, r)
          | none => none
    else if c = lbrace then
      match cs with
      | [] => none
      | d :: ds =>
        if d = rbrace then some (.obj [], ds)
        else
          match parseMembers fuel (d :: ds) with
          | some (ms, r) => some (.obj ms, r)
          | none => none
    else if c = '-' then
      match cs with
      | [] => none
      | d :: ds =>
        if d.isDigit then
          let p := parseDigits (d :: ds) 0
          some (.num (-(p.1 : Int)), p.2)
        else none
    else if c.isDigit then
      let p := parseDigits (c :: cs) 0
      some (.num (p.1 : Int), p.2)
    else none

/-- Fueled parser for the elements of a nonempty JSON array. -/
def parseElems : Nat → List Char → Option (List Json × List Char)
  | 0, _ => none
  | fuel + 1, cs =>
    match parseVal fuel cs with
    | none => none
    | some (v, r) =>
      match r with
      | [] => none
      | d :: ds =>
        if d = ',' then
          match parseElems fuel ds with
          | some (xs, r2) => some (v :: xs, r2)
          | none => none
        else if d = ']' then some ([v], ds)
        else none

/-- Fueled parser for the members of a nonempty JSON object. -/
def parseMembers : Nat → List Char → Option (List (List Char × Json) × List Char)
  | 0, _ => none
  | fuel + 1, cs =>
    match cs with
    | [] => none
    | c :: cs2 =>
      if c = quoteC then
        match parseStr cs2 with
        | none => none
        | some (k, r1) =>
          match r1 with
          | [] => none
          | d :: ds =>
            if d = ':' then
              match parseVal fuel ds with
              | none => none
              | some (v, r2) =>
                match r2 with
                | [] => none
                | e :: es =>
                  if e = ',' then
                    match parseMembers fuel es with
                    | some (ms, r3) => some ((k, v) :: ms, r3)
                    | none => none
                  else if e = rbrace then some ([(k, v)], es)
                  else none
            else none
      else none

end

/-- Manually stated one-step unfolding of the value parser on a cons cell,
holding by definitional reduction. -/
theorem parseVal_cons (fuel : Nat) (c : Char) (cs : List Char) :
    parseVal (fuel + 1) (c :: cs) =
      (if c = 'n' then
        match dropLit ['u', 'l', 'l'] cs with
        | some r => some (.null, r)
        | none => none
      else if c = 't' then
        match dropLit ['r', 'u', 'e'] cs with
        | some r => some (.bool true, r)
        | none => none
      else if c = 'f' then
        match dropLit ['a', 'l', 's', 'e'] cs with
        | some r => some (.bool false, r)
        | none => none
      else if c = quoteC then
        match parseStr cs with
        | some (s, r) => some (.str s, r)
        | none => none
      else if c = '[' then
        match cs with
        | [] => none
        | d :: ds =>
          if d = ']' then some (.arr [], ds)
          else
            match parseElems fuel (d :: ds) with
            | some (xs, r) => some (.arr xs, r)
            | none => none
      else if c = lbrace then
        match cs with
        | [] => none
        | d :: ds =>
          if d = rbrace then some (.obj [], ds)
          else
            match parseMembers fuel (d :: ds) with
            | some (ms, r) => some (.obj ms, r)
            | none => none
      else if c = '-' then
        match cs with
        | [] => none
        | d :: ds =>
          if d.isDigit then
            let p := parseDigits (d :: ds) 0
            some (.num (-(p.1 : Int)), p.2)
          else none
      else if c.isDigit then
        let p := parseDigits (c :: cs) 0
        some (.num (p.1 : Int), p.2)
      else none) := rfl

/-- Manually stated one-step unfolding of the array-element parser. -/
theorem parseElems_succ (fuel : Nat) (cs : List Char) :
    parseElems (fuel + 1) cs =
      (match parseVal fuel cs with
      | none => none
      | some (v, r) =>
        match r with
        | [] => none
        | d :: ds =>
          if d = ',' then
            match parseElems fuel ds with
            | some (xs, r2) => some (v :: xs, r2)
            | none => none
          else if d = ']' then some ([v], ds)
          else none) := rfl

/-- Manually stated one-step unfolding of the object-member parser. -/
theorem parseMembers_succ (fuel : Nat) (cs : List Char) :
    parseMembers (fuel + 1) cs =
      (match cs with
      | [] => none
      | c :: cs2 =>
        if c = quoteC then
          match parseStr cs2 with
          | none => none
          | some (k, r1) =>
            match r1 with
            | [] => none
            | d :: ds =>
              if d = ':' then
                match parseVal fuel ds with
                | none => none
                | some (v, r2) =>
                  match r2 with
                  | [] => none
                  | e :: es =>
                    if e = ',' then
                      match parseMembers fuel es with
                      | some (ms, r3) => some ((k, v) :: ms, r3)
                      | none => none
                    else if e = rbrace then some ([(k, v)], es)
                    else none
              else none
        else none) := rfl

/-- Top-level JSON parser: the whole input must be consumed. -/
def parseTop (cs : List Char) : Option Json :=
  match parseVal (cs.length + 1) cs with
  | some (v, []) => some v
  | _ => none

example : parseTop (stringifyV (.arr [.num 3, .null, .str (chars "ab")])) =
    some (.arr [.num 3, .null, .str (chars "ab")]) := by rfl

example : stringifyV (.num (-45)) = chars "-45" := by rfl

example : parseTop (chars "17") = some (.num 17) := by rfl

/-- Predicate on remaining input: the head character, if any, is not a digit. -/
def noDigitHead : List Char → Bool
  | [] => true
  | c :: _ => !c.isDigit

/-- Folding one decimal digit character into a numeric accumulator. -/
def foldDigit (a : Nat) (c : Char) : Nat := a * 10 + (c.toNat - 48)

theorem natCharsAux_zero (fuel : Nat) (acc : List Char) : natCharsAux fuel 0 acc = acc := by
  cases fuel <;> rfl

theorem natCharsAux_append (fuel : Nat) :
    ∀ n acc, natCharsAux fuel n acc = natCharsAux fuel n [] ++ acc := by
  induction fuel with
  | zero => intro n acc; rfl
  | succ f ih =>
    intro n acc
    cases n with
    | zero => rfl
    | succ m =>
      simp only [natCharsAux]
      rw [ih ((m + 1) / 10) (digitChar ((m + 1) % 10) :: acc),
        ih ((m + 1) / 10) [digitChar ((m + 1) % 10)]]
      simp

theorem natCharsAux_fuel :
    ∀ n f1 f2, n ≤ f1 → n ≤ f2 → natCharsAux f1 n [] = natCharsAux f2 n [] := by
  intro n
  induction n using Nat.strong_induction_on with
  | _ n ih =>
    intro f1 f2 h1 h2
    cases n with
    | zero => rw [natCharsAux_zero, natCharsAux_zero]
    | succ m =>
      obtain ⟨a, rfl⟩ : ∃ a, f1 = a + 1 := ⟨f1 - 1, by omega⟩
      obtain ⟨b, rfl⟩ : ∃ b, f2 = b + 1 := ⟨f2 - 1, by omega⟩
      simp only [natCharsAux]
      rw [natCharsAux_append a, natCharsAux_append b]
      have hq : (m + 1) / 10 < m + 1 := Nat.div_lt_self (by omega) (by omega)
      rw [ih ((m + 1) / 10) hq a b (by omega) (by omega)]

theorem natCharsCore_zero : natCharsCore 0 = [] := rfl

theorem natCharsCore_rec (n : Nat) (hn : 0 < n) :
    natCharsCore n = natCharsCore (n / 10) ++ [digitChar (n % 10)] := by
  obtain ⟨m, rfl⟩ : ∃ m, n = m + 1 := ⟨n - 1, by omega⟩
  show natCharsAux (m + 2) (m + 1) [] = _
  simp only [natCharsAux]
  rw [natCharsAux_append (m + 1)]
  unfold natCharsCore
  rw [natCharsAux_fuel ((m + 1) / 10) (m + 1) ((m + 1) / 10 + 1) (by omega) (by omega)]

theorem digitChar_isDigit (d : Nat) (hd : d < 10) : (digitChar d).isDigit = true := by
  interval_cases d <;> decide

theorem digitChar_toNat (d : Nat) (hd : d < 10) : (digitChar d).toNat = 48 + d := by
  interval_cases d <;> decide

theorem natCharsCore_digits (n : Nat) : ∀ c ∈ natCharsCore n, c.isDigit = true := by
  induction n using Nat.strong_induction_on with
  | _ n ih =>
    rcases Nat.eq_zero_or_pos n with h | h
    · subst h; rw [natCharsCore_zero]; intro c hc; cases hc
    · rw [natCharsCore_rec n h]
      intro c hc
      rcases List.mem_append.1 hc with h1 | h1
      · exact ih (n / 10) (Nat.div_lt_self h (by omega)) c h1
      · have : c = digitChar (n % 10) := by simpa using h1
        subst this
        exact digitChar_isDigit _ (Nat.mod_lt _ (by omega))

theorem natChars_digits (n : Nat) : ∀ c ∈ natChars n, c.isDigit = true := by
  unfold natChars
  split
  · intro c hc
    have : c = '0' := by simpa using hc
    subst this; decide
  · exact natCharsCore_digits n

theorem natCharsCore_ne_nil (n : Nat) (hn : 0 < n) : natCharsCore n ≠ [] := by
  rw [natCharsCore_rec n hn]; simp

theorem natChars_ne_nil (n : Nat) : natChars n ≠ [] := by
  unfold natChars
  split
  · simp
  · next h => exact natCharsCore_ne_nil n (by omega)

theorem natCharsCore_foldl (n : Nat) :
    ∀ acc, (natCharsCore n).foldl foldDigit acc =
      acc * 10 ^ (natCharsCore n).length + n := by
  induction n using Nat.strong_induction_on with
  | _ n ih =>
    intro acc
    rcases Nat.eq_zero_or_pos n with h | h
    · subst h; rw [natCharsCore_zero]; simp
    · rw [natCharsCore_rec n h, List.foldl_append, List.length_append]
      rw [ih (n / 10) (Nat.div_lt_self h (by omega)) acc]
      simp only [List.foldl_cons, List.foldl_nil, List.length_cons, List.length_nil]
      rw [foldDigit, digitChar_toNat _ (Nat.mod_lt _ (by omega))]
      rw [Nat.zero_add, pow_succ, ← Nat.mul_assoc]
      generalize acc * 10 ^ (natCharsCore (n / 10)).length = y
      omega

theorem natChars_foldl (n : Nat) : (natChars n).foldl foldDigit 0 = n := by
  unfold natChars
  split
  · next h => subst h; decide
  · rw [natCharsCore_foldl]; simp

theorem parseDigits_stop (rest : List Char) (acc : Nat) (h : noDigitHead rest = true) :
    parseDigits rest acc = (acc, rest) := by
  cases rest with
  | nil => rfl
  | cons c cs =>
    simp only [noDigitHead, Bool.not_eq_true'] at h
    simp [parseDigits, h]

theorem parseDigits_run (ds : List Char) :
    (∀ c ∈ ds, c.isDigit = true) → ∀ acc rest, noDigitHead rest = true →
    parseDigits (ds ++ rest) acc = (ds.foldl foldDigit acc, rest) := by
  induction ds with
  | nil => intro _ acc rest h; simpa using parseDigits_stop rest acc h
  | cons d ds ih =>
    intro hall acc rest h
    have hd := hall d (by simp)
    simp only [List.cons_append, parseDigits, hd, if_true, List.foldl_cons, List.append_eq]
    rw [ih (fun c hc => hall c (by simp [hc])) _ rest h]
    rfl

theorem parseDigits_natChars (n : Nat) (rest : List Char) (h : noDigitHead rest = true) :
    parseDigits (natChars n ++ rest) 0 = (n, rest) := by
  rw [parseDigits_run (natChars n) (natChars_digits n) 0 rest h, natChars_foldl]

theorem dropLit_run (p : List Char) : ∀ r, dropLit p (p ++ r) = some r := by
  induction p with
  | nil => intro r; rfl
  | cons c cs ih => intro r; simp [dropLit, ih]

theorem ne_of_digit {c x : Char} (h : c.isDigit = true) (hx : x.isDigit = false) : c ≠ x := by
  intro e
  subst e
  rw [h] at hx
  cases hx

theorem bslash_ne_quoteC : (bslash = quoteC) = False := by decide

theorem charN_ne_quoteC : (('n' : Char) = quoteC) = False := by decide

theorem charN_ne_bslash : (('n' : Char) = bslash) = False := by decide

theorem charR_ne_quoteC : (('r' : Char) = quoteC) = False := by decide

theorem charR_ne_bslash : (('r' : Char) = bslash) = False := by decide

theorem charT_ne_quoteC : (('t' : Char) = quoteC) = False := by decide

theorem charT_ne_bslash : (('t' : Char) = bslash) = False := by decide

theorem parseStr_run (s : List Char) :
    ∀ rest, parseStr (escString s ++ quoteC :: rest) = some (s, rest) := by
  induction s with
  | nil =>
    intro rest
    show parseStr (quoteC :: rest) = some ([], rest)
    rw [parseStr.eq_def]
    simp
  | cons c cs ih =>
    intro rest
    by_cases h1 : c = quoteC
    · subst h1
      simp only [escString, escChar, if_pos rfl, List.cons_append, List.nil_append]
      rw [parseStr.eq_def]
      simp [unescChar, ih rest, bslash_ne_quoteC]
    · by_cases h2 : c = bslash
      · subst h2
        simp only [escString, escChar, bslash_ne_quoteC, ite_false, if_pos rfl,
          List.cons_append, List.nil_append]
        rw [parseStr.eq_def]
        simp [unescChar, ih rest, bslash_ne_quoteC]
      · by_cases h3 : c = Char.ofNat 10
        · subst h3
          simp only [escString, escChar]
          simp only [if_neg h1, if_neg h2, if_pos rfl, List.cons_append, List.nil_append]
          rw [parseStr.eq_def]
          simp [unescChar, ih rest, bslash_ne_quoteC, charN_ne_quoteC, charN_ne_bslash]
        · by_cases h4 : c = Char.ofNat 13
          · subst h4
            simp only [escString, escChar]
            simp only [if_neg h1, if_neg h2, if_neg h3, if_pos rfl, List.cons_append,
              List.nil_append]
            rw [parseStr.eq_def]
            simp [unescChar, ih rest, bslash_ne_quoteC, charR_ne_quoteC, charR_ne_bslash]
          · by_cases h5 : c = Char.ofNat 9
            · subst h5
              simp only [escString, escChar]
              simp only [if_neg h1, if_neg h2, if_neg h3, if_neg h4, if_pos rfl,
                List.cons_append, List.nil_append]
              rw [parseStr.eq_def]
              simp [unescChar, ih rest, bslash_ne_quoteC, charT_ne_quoteC, charT_ne_bslash]
            · simp only [escString, escChar]
              simp only [if_neg h1, if_neg h2, if_neg h3, if_neg h4, if_neg h5,
                List.cons_append, List.nil_append]
              rw [parseStr.eq_def]
              simp [h1, h2, ih rest]



theorem quoteC_ne_n : (quoteC = 'n') = False := by decide

theorem quoteC_ne_t : (quoteC = 't') = False := by decide

theorem quoteC_ne_f : (quoteC = 'f') = False := by decide

theorem quoteC_ne_rbrace : (quoteC = rbrace) = False := by decide

theorem lbrace_ne_n : (lbrace = 'n') = False := by decide

theorem lbrace_ne_t : (lbrace = 't') = False := by decide

theorem lbrace_ne_f : (lbrace = 'f') = False := by decide

theorem lbrace_ne_quoteC : (lbrace = quoteC) = False := by decide

theorem lbrace_ne_lbrack : (lbrace = '[') = False := by decide

theorem dash_ne_quoteC : (('-' : Char) = quoteC) = False := by decide

theorem dash_ne_lbrace : (('-' : Char) = lbrace) = False := by decide

theorem lbrack_ne_quoteC : (('[' : Char) = quoteC) = False := by decide

theorem rbrace_ne_comma : (rbrace = ',') = False := by decide

theorem noDigit_comma (l : List Char) : noDigitHead (',' :: l) = true := rfl

theorem noDigit_rbrack (l : List Char) : noDigitHead (']' :: l) = true := rfl

theorem noDigit_rbrace (l : List Char) : noDigitHead (rbrace :: l) = true := rfl

theorem stringifyV_head (v : Json) :
    ∃ c cs, stringifyV v = c :: cs ∧ c ≠ ']' ∧ c ≠ rbrace := by
  cases v with
  | null => exact ⟨'n', ['u', 'l', 'l'], rfl, by decide, by decide⟩
  | bool b =>
    cases b with
    | true => exact ⟨'t', ['r', 'u', 'e'], rfl, by decide, by decide⟩
    | false => exact ⟨'f', ['a', 'l', 's', 'e'], rfl, by decide, by decide⟩
  | num n =>
    by_cases hn : n < 0
    · refine ⟨'-', natChars n.natAbs, ?_, by decide, by decide⟩
      show intChars n = _
      rw [intChars, if_pos hn]
    · obtain ⟨d, ds, hds⟩ := List.exists_cons_of_ne_nil (natChars_ne_nil n.toNat)
      have hd : d.isDigit = true :=
        natChars_digits n.toNat d (by rw [hds]; exact List.mem_cons_self d ds)
      refine ⟨d, ds, ?_, ne_of_digit hd (by decide), ne_of_digit hd (by decide)⟩
      show intChars n = _
      rw [intChars, if_neg hn, hds]
  | str s => exact ⟨quoteC, escString s ++ [quoteC], rfl, by decide, by decide⟩
  | arr xs => exact ⟨'[', stringifyElems xs ++ [']'], rfl, by decide, by decide⟩
  | obj ms => exact ⟨lbrace, stringifyMembers ms ++ [rbrace], rfl, by decide, by decide⟩

theorem parse_round (fuel : Nat) :
    (∀ v rest, (stringifyV v).length < fuel → noDigitHead rest = true →
      parseVal fuel (stringifyV v ++ rest) = some (v, rest)) ∧
    (∀ x xs rest, (stringifyElems (x :: xs)).length + 1 < fuel →
      parseElems fuel (stringifyElems (x :: xs) ++ ']' :: rest) = some (x :: xs, rest)) ∧
    (∀ k v ms rest, (stringifyMembers ((k, v) :: ms)).length + 1 < fuel →
      parseMembers fuel (stringifyMembers ((k, v) :: ms) ++ rbrace :: rest) =
        some ((k, v) :: ms, rest)) := by
  induction fuel with
  | zero =>
    refine ⟨?_, ?_, ?_⟩ <;> (intros; exfalso; omega)
  | succ fuel ih =>
    obtain ⟨ihV, ihE, ihM⟩ := ih
    refine ⟨?_, ?_, ?_⟩
    · intro v rest hlen hrest
      cases v with
      | null => rfl
      | bool b => cases b <;> rfl
      | num n =>
        by_cases hn : n < 0
        · obtain ⟨d, ds, hds⟩ := List.exists_cons_of_ne_nil (natChars_ne_nil n.natAbs)
          have hd : d.isDigit = true :=
            natChars_digits _ d (by rw [hds]; exact List.mem_cons_self d ds)
          have hinput : stringifyV (.num n) ++ rest = '-' :: (natChars n.natAbs ++ rest) := by
            show intChars n ++ rest = _
            rw [intChars, if_pos hn, List.cons_append]
          rw [hinput, hds, parseVal_cons]
          simp only [List.cons_append]
          simp [dash_ne_quoteC, dash_ne_lbrace, hd]
          have hpd : parseDigits (d :: (ds ++ rest)) 0 = (n.natAbs, rest) := by
            have := parseDigits_natChars n.natAbs rest hrest
            rw [hds] at this
            simpa using this
          rw [hpd]
          have hval : -((n.natAbs : Int)) = n := by omega
          dsimp only
          rw [hval]
          exact ⟨rfl, rfl⟩
        · obtain ⟨d, ds, hds⟩ := List.exists_cons_of_ne_nil (natChars_ne_nil n.toNat)
          have hd : d.isDigit = true :=
            natChars_digits _ d (by rw [hds]; exact List.mem_cons_self d ds)
          have h1 : d ≠ 'n' := ne_of_digit hd (by decide)
          have h2 : d ≠ 't' := ne_of_digit hd (by decide)
          have h3 : d ≠ 'f' := ne_of_digit hd (by decide)
          have h4 : d ≠ quoteC := ne_of_digit hd (by decide)
          have h5 : d ≠ '[' := ne_of_digit hd (by decide)
          have h6 : d ≠ lbrace := ne_of_digit hd (by decide)
          have h7 : d ≠ '-' := ne_of_digit hd (by decide)
          have hinput : stringifyV (.num n) ++ rest = d :: (ds ++ rest) := by
            show intChars n ++ rest = _
            rw [intChars, if_neg hn, hds, List.cons_append]
          rw [hinput, parseVal_cons]
          simp [h1, h2, h3, h4, h5, h6, h7, hd]
          have hpd : parseDigits (d :: (ds ++ rest)) 0 = (n.toNat, rest) := by
            have := parseDigits_natChars n.toNat rest hrest
            rw [hds] at this
            simpa using this
          rw [hpd]
          have hval : ((n.toNat : Int)) = n := by omega
          dsimp only
          rw [hval]
          exact ⟨rfl, rfl⟩
      | str s =>
        have hinput : stringifyV (.str s) ++ rest = quoteC :: (escString s ++ quoteC :: rest) := by
          show strLit s ++ rest = _
          rw [strLit]
          simp
        rw [hinput, parseVal_cons]
        simp [quoteC_ne_n, quoteC_ne_t, quoteC_ne_f, parseStr_run s rest]
      | arr xs =>
        cases xs with
        | nil => rfl
        | cons x xs2 =>
          obtain ⟨c0, cs0, h0, hc0, _⟩ := stringifyV_head x
          have ht : ∃ t, stringifyElems (x :: xs2) = c0 :: t := by
            cases xs2 with
            | nil =>
              exact ⟨cs0, by rw [show stringifyElems [x] = stringifyV x from rfl, h0]⟩
            | cons y ys =>
              refine ⟨cs0 ++ ',' :: stringifyElems (y :: ys), ?_⟩
              rw [show stringifyElems (x :: y :: ys) =
                stringifyV x ++ ',' :: stringifyElems (y :: ys) from rfl, h0]
              simp
          obtain ⟨t, ht1⟩ := ht
          have hlen2 : (stringifyElems (x :: xs2)).length + 1 < fuel := by
            have h2 : (stringifyV (.arr (x :: xs2))).length =
                (stringifyElems (x :: xs2)).length + 2 := by
              show ('[' :: stringifyElems (x :: xs2) ++ [']']).length = _
              simp
            omega
          have hinput : stringifyV (.arr (x :: xs2)) ++ rest =
              '[' :: (c0 :: (t ++ ']' :: rest)) := by
            show ('[' :: stringifyElems (x :: xs2) ++ [']']) ++ rest = _
            rw [ht1]
            simp
          rw [hinput, parseVal_cons]
          simp [lbrack_ne_quoteC, hc0]
          have hback : c0 :: (t ++ ']' :: rest) = stringifyElems (x :: xs2) ++ ']' :: rest := by
            rw [ht1]
            simp
          rw [hback, ihE x xs2 rest hlen2]
      | obj ms =>
        cases ms with
        | nil => rfl
        | cons kv ms2 =>
          obtain ⟨k, v⟩ := kv
          have ht : ∃ t, stringifyMembers ((k, v) :: ms2) = quoteC :: t := by
            cases ms2 with
            | nil =>
              refine ⟨escString k ++ [quoteC] ++ ':' :: stringifyV v, ?_⟩
              rw [show stringifyMembers [(k, v)] = strLit k ++ ':' :: stringifyV v from rfl,
                strLit]
              simp
            | cons m mss =>
              refine ⟨escString k ++ [quoteC] ++ ':' :: stringifyV v ++
                ',' :: stringifyMembers (m :: mss), ?_⟩
              rw [show stringifyMembers ((k, v) :: m :: mss) =
                strLit k ++ ':' :: stringifyV v ++ ',' :: stringifyMembers (m :: mss) from rfl,
                strLit]
              simp
          obtain ⟨t, ht1⟩ := ht
          have hlen2 : (stringifyMembers ((k, v) :: ms2)).length + 1 < fuel := by
            have h2 : (stringifyV (.obj ((k, v) :: ms2))).length =
                (stringifyMembers ((k, v) :: ms2)).length + 2 := by
              show (lbrace :: stringifyMembers ((k, v) :: ms2) ++ [rbrace]).length = _
              simp
            omega
          have hinput : stringifyV (.obj ((k, v) :: ms2)) ++ rest =
              lbrace :: (quoteC :: (t ++ rbrace :: rest)) := by
            show (lbrace :: stringifyMembers ((k, v) :: ms2) ++ [rbrace]) ++ rest = _
            rw [ht1]
            simp
          rw [hinput, parseVal_cons]
          simp [lbrace_ne_n, lbrace_ne_t, lbrace_ne_f, lbrace_ne_quoteC, lbrace_ne_lbrack,
            quoteC_ne_rbrace]
          have hback : quoteC :: (t ++ rbrace :: rest) =
              stringifyMembers ((k, v) :: ms2) ++ rbrace :: rest := by
            rw [ht1]
            simp
          rw [hback, ihM k v ms2 rest hlen2]
    · intro x xs rest hlen
      cases xs with
      | nil =>
        rw [show stringifyElems [x] = stringifyV x from rfl] at hlen ⊢
        rw [parseElems_succ]
        rw [ihV x (']' :: rest) (by omega) (noDigit_rbrack rest)]
        simp
      | cons y ys =>
        rw [show stringifyElems (x :: y :: ys) =
          stringifyV x ++ ',' :: stringifyElems (y :: ys) from rfl] at hlen ⊢
        simp only [List.length_append, List.length_cons] at hlen
        rw [List.append_assoc, List.cons_append]
        rw [parseElems_succ]
        rw [ihV x (',' :: (stringifyElems (y :: ys) ++ ']' :: rest)) (by omega)
          (noDigit_comma _)]
        simp only []
        rw [ihE y ys rest (by omega)]
        simp
    · intro k v ms rest hlen
      cases ms with
      | nil =>
        rw [show stringifyMembers [(k, v)] = strLit k ++ ':' :: stringifyV v from rfl]
          at hlen ⊢
        rw [strLit] at hlen ⊢
        simp only [List.length_append, List.length_cons, List.cons_append,
          List.append_assoc, List.nil_append, List.singleton_append] at hlen ⊢
        rw [parseMembers_succ]
        simp only [List.cons_append]
        have hstr : parseStr (escString k ++ quoteC :: (':' :: (stringifyV v ++
            rbrace :: rest))) = some (k, ':' :: (stringifyV v ++ rbrace :: rest)) :=
          parseStr_run k _
        simp [hstr]
        rw [ihV v (rbrace :: rest) (by omega) (noDigit_rbrace rest)]
        simp [rbrace_ne_comma]
      | cons m ms2 =>
        rw [show stringifyMembers ((k, v) :: m :: ms2) =
          strLit k ++ ':' :: stringifyV v ++ ',' :: stringifyMembers (m :: ms2) from rfl]
          at hlen ⊢
        rw [strLit] at hlen ⊢
        simp only [List.length_append, List.length_cons, List.cons_append,
          List.append_assoc, List.nil_append, List.singleton_append] at hlen ⊢
        rw [parseMembers_succ]
        simp only [List.cons_append]
        have hstr : parseStr (escString k ++ quoteC :: (':' :: (stringifyV v ++
            ',' :: (stringifyMembers (m :: ms2) ++ rbrace :: rest)))) =
            some (k, ':' :: (stringifyV v ++
              ',' :: (stringifyMembers (m :: ms2) ++ rbrace :: rest))) :=
          parseStr_run k _
        simp [hstr]
        rw [ihV v (',' :: (stringifyMembers (m :: ms2) ++ rbrace :: rest)) (by omega)
          (noDigit_comma _)]
        simp only []
        obtain ⟨k2, v2⟩ := m
        rw [ihM k2 v2 ms2 rest (by omega)]
        simp

/-- Round trip of the modelled platform JSON library: parsing a serialized
JSON value recovers the value. -/
theorem parseTop_stringify (v : Json) : parseTop (stringifyV v) = some v := by
  have h := (parse_round ((stringifyV v).length + 1)).1 v [] (by omega) rfl
  rw [List.append_nil] at h
  rw [parseTop, h]

/-- Splitting a character list at slash characters, modelling the JavaScript
split with separator slash: empty segments are kept. -/
def splitSlash : List Char → List (List Char)
  | [] => [[]]
  | c :: cs =>
    if c = '/' then [] :: splitSlash cs
    else
      match splitSlash cs with
      | [] => [[c]]
      | s :: ss => (c :: s) :: ss

/-- Joining segments with slashes, modelling the JavaScript array join. -/
def joinSlash : List (List Char) → List Char
  | [] => []
  | [s] => s
  | s :: t :: ss => s ++ '/' :: joinSlash (t :: ss)

/-- Boolean test that the pattern occurs at the start of the text. -/
def startsWithL : List Char → List Char → Bool
  | [], _ => true
  | _ :: _, [] => false
  | p :: ps, c :: cs => p == c && startsWithL ps cs

/-- Boolean substring test, modelling the JavaScript string includes method. -/
def hasSub (pat : List Char) : List Char → Bool
  | [] => pat.isEmpty
  | c :: cs => startsWithL pat (c :: cs) || hasSub pat cs

example : splitSlash (chars "/api/network/observations") =
    [[], chars "api", chars "network", chars "observations"] := by rfl

example : splitSlash (chars "") = [[]] := by rfl

example : hasSub (chars "timeout") (chars "a timeout occurred") = true := by rfl

example : hasSub (chars "timeout") (chars "connection refused") = false := by rfl

/-- Deployment configuration read from the process environment at startup:
the two upstream base URLs, whether the Netlify context is development, and
the optional production allowed origin. -/
structure Config where
  networkURL : List Char
  dbURL : List Char
  isDevelopment : Bool
  productionAllowedOrigin : Option (List Char)

/-- Allowed origin: any origin in development, else the configured
production origin, falling back to any origin when unset or empty. -/
def ALLOWED_ORIGIN (cfg : Config) : List Char :=
  if cfg.isDevelopment then chars "*"
  else
    match cfg.productionAllowedOrigin with
    | some s => if s = [] then chars "*" else s
    | none => chars "*"

/-- Base CORS headers attached to every response. -/
def BASE_CORS_HEADERS (cfg : Config) : List (List Char × List Char) :=
  [(chars "Access-Control-Allow-Origin", ALLOWED_ORIGIN cfg),
   (chars "Access-Control-Allow-Headers", chars "Content-Type, Accept"),
   (chars "Access-Control-Allow-Methods", chars "GET, OPTIONS")]

/-- Headers exposed to the browser by default. -/
def EXPOSED_HEADERS : List Char := chars "Content-Type, Content-Length"

/-- Inbound request record delivered by the function runtime. -/
structure Event where
  httpMethod : List Char
  path : List Char
  queryStringParameters : List (List Char × List Char)

/-- JavaScript value held in a body: either a plain string or a parsed JSON
document, matching what axios places in the response data field. -/
inductive JsVal where
  | str (s : List Char)
  | json (v : Json)

/-- Upstream HTTP response as the HTTP client delivers it: status code, a
header map with lower-cased keys, and the body value. -/
structure UpstreamResponse where
  status : Nat
  headers : List (List Char × List Char)
  data : JsVal

/-- Transport-level failure raised by the HTTP client: the error code, the
error message, and whether a request object was attached (request sent but
no response received). -/
structure AxiosError where
  code : Option (List Char)
  message : List Char
  hasRequest : Bool

/-- Result of the upstream dispatch.  With validateStatus constantly true,
every HTTP status in 100..599 is delivered as a response outcome; only
transport-level failures surface as the failure outcome. -/
inductive Outcome where
  | response (r : UpstreamResponse)
  | failure (e : AxiosError)

/-- Outbound response record returned to the function runtime. -/
structure Response where
  statusCode : Nat
  headers : List (List Char × List Char)
  body : JsVal

/-- Request issued to the upstream API through the get call of the HTTP
client (so its method is GET by construction). -/
structure UpstreamRequest where
  url : List Char
  params : List (List Char × List Char)
  timeout : Nat
  headers : List (List Char × List Char)

/-- Lookup of a header value in a header map. -/
def hGet (hs : List (List Char × List Char)) (k : List Char) : Option (List Char) :=
  match hs.find? (fun p => p.1 == k) with
  | some p => some p.2
  | none => none

/-- Embedding of the JSON serialization of an object with a single message
field, as the handler builds for local and transport-error responses. -/
def msgBody (m : List Char) : JsVal :=
  .str (stringifyV (.obj [(chars "message", .str m)]))

/-- Embedding of the JSON serialization of an object carrying a message and
the numeric upstream status. -/
def msgStatusBody (m : List Char) (s : Nat) : JsVal :=
  .str (stringifyV (.obj [(chars "message", .str m),
    (chars "upstreamStatus", .num (s : Int))]))

/-- Message for the 405 method rejection. -/
def methodNotAllowedMsg (m : List Char) : List Char :=
  chars "Method " ++ m ++ chars " Not Allowed"

/-- Message for the 404 invalid path structure rejection. -/
def invalidStructureMsg : List Char :=
  chars "Not Found: Invalid API path structure. Expected /api/network/... or /api/db/..."

/-- Message for the 404 unsupported API type rejection. -/
def unsupportedTypeMsg (t : List Char) : List Char :=
  chars "Not Found: API type " ++ squote :: t ++ squote :: chars " is not supported. Use " ++
    squote :: chars "network" ++ squote :: chars " or " ++ squote :: chars "db" ++
    squote :: chars "."

/-- Generic message for an upstream error status. -/
def genericErrMsg (s : Nat) : List Char :=
  chars "Error fetching data from SatNOGS. Status: " ++ natChars s ++ chars "."

/-- Specialized message for an upstream 404. -/
def notFound404Msg (t : List Char) : List Char :=
  chars "Not Found: The requested resource was not found on the SatNOGS " ++ t ++ chars " API."

/-- Message for the 504 timeout translation. -/
def gatewayTimeoutMsg (p : List Char) : List Char :=
  chars "Gateway Timeout: No timely response from SatNOGS API for " ++ p ++ chars "."

/-- Message for the 502 bad gateway translation. -/
def badGatewayMsg (p : List Char) : List Char :=
  chars "Bad Gateway: Error communicating with SatNOGS API for " ++ p ++ chars "."

/-- Message for the 500 internal error translation. -/
def internalErrMsg (p : List Char) : List Char :=
  chars "Internal Server Error processing the request for " ++ p ++ chars "."

/-- Copying the upstream Link header into the outbound headers and extending
the exposed-header list when the header is present, with the JavaScript
truthiness test (an empty value counts as absent). -/
def linkAdd (lnk : Option (List Char)) (hs : List (List Char × List Char))
    (exposed : List Char) : List (List Char × List Char) × List Char :=
  match lnk with
  | some l =>
    if l = [] then (hs, exposed)
    else (hs ++ [(chars "Link", l)], exposed ++ chars ", Link")
  | none => (hs, exposed)

/-- Path segments of the inbound request: the path split at slashes with
empty segments discarded. -/
def pathSegs (ev : Event) : List (List Char) :=
  (splitSlash ev.path).filter (fun s => s ≠ [])

/-- Second path segment, the requested API type. -/
def apiType (ev : Event) : List Char := (pathSegs ev).getD 1 []

/-- Residual path: a slash followed by the remaining segments re-joined. -/
def remPath (ev : Event) : List Char := '/' :: joinSlash ((pathSegs ev).drop 2)

/-- First stage of the handler, covering the method gate and the path
routing.  It returns either an immediate local response or the API type
together with the upstream request handed to the HTTP client. -/
def preDispatch (cfg : Config) (ev : Event) :
    Response ⊕ (List Char × UpstreamRequest) :=
  if ev.httpMethod = chars "OPTIONS" then
    .inl { statusCode := 204, headers := BASE_CORS_HEADERS cfg, body := .str [] }
  else if ev.httpMethod ≠ chars "GET" then
    .inl { statusCode := 405,
           headers := BASE_CORS_HEADERS cfg ++
             [(chars "Content-Type", chars "application/json")],
           body := msgBody (methodNotAllowedMsg ev.httpMethod) }
  else if (pathSegs ev).length < 3 ∨ (pathSegs ev).getD 0 [] ≠ chars "api" then
    .inl { statusCode := 404,
           headers := BASE_CORS_HEADERS cfg ++
             [(chars "Content-Type", chars "application/json")],
           body := msgBody invalidStructureMsg }
  else if apiType ev = chars "network" then
    .inr (apiType ev,
      { url := cfg.networkURL ++ remPath ev,
        params := ev.queryStringParameters,
        timeout := 15000,
        headers := [(chars "Accept", chars "application/json")] })
  else if apiType ev = chars "db" then
    .inr (apiType ev,
      { url := cfg.dbURL ++ remPath ev,
        params := ev.queryStringParameters,
        timeout := 15000,
        headers := [(chars "Accept", chars "application/json")] })
  else
    .inl { statusCode := 404,
           headers := BASE_CORS_HEADERS cfg ++
             [(chars "Content-Type", chars "application/json")],
           body := msgBody (unsupportedTypeMsg (apiType ev)) }

/-- View of a JavaScript body value as a JSON value, so that the platform
JSON serializer applies to either form. -/
def JsVal.toJson : JsVal → Json
  | .str s => .str s
  | .json v => v

/-- Embedding of the platform JSON serializer on a JavaScript body value. -/
def jsStringify (x : JsVal) : List Char := stringifyV x.toJson

/-- Content-Type of a successful outbound response: the upstream value when
truthy, else the octet-stream fallback (mirroring the truthiness test of
the source). -/
def ctValOf (r : UpstreamResponse) : List Char :=
  match hGet r.headers (chars "content-type") with
  | some s => if s = [] then chars "application/octet-stream" else s
  | none => chars "application/octet-stream"

/-- Whether the upstream content type is truthy and mentions json, deciding
whether the body is re-serialized from the parsed JSON value. -/
def looksLikeJsonOf (r : UpstreamResponse) : Bool :=
  match hGet r.headers (chars "content-type") with
  | some s => if s = [] then false else hasSub (chars "application/json") s
  | none => false

/-- Second stage of the handler: translation of the upstream outcome (the
try block after the awaited get call, and the catch block) into the
outbound response. -/
def translate (cfg : Config) (ev : Event) (apiType : List Char) : Outcome → Response
  | .response r =>
    if r.status ≥ 400 then
      let errorMessage :=
        if r.status = 404 then notFound404Msg apiType else genericErrMsg r.status
      let headers1 := BASE_CORS_HEADERS cfg ++
        [(chars "Content-Type", chars "application/json")]
      let lr := linkAdd (hGet r.headers (chars "link")) headers1 EXPOSED_HEADERS
      { statusCode := r.status,
        headers := lr.1 ++ [(chars "Access-Control-Expose-Headers", lr.2)],
        body := msgStatusBody errorMessage r.status }
    else
      let headers1 := BASE_CORS_HEADERS cfg ++ [(chars "Content-Type", ctValOf r)]
      let lr := linkAdd (hGet r.headers (chars "link")) headers1 EXPOSED_HEADERS
      { statusCode := r.status,
        headers := lr.1 ++ [(chars "Access-Control-Expose-Headers", lr.2)],
        body := if looksLikeJsonOf r then .str (jsStringify r.data) else r.data }
  | .failure e =>
    let errorHeaders := BASE_CORS_HEADERS cfg ++
      [(chars "Content-Type", chars "application/json"),
       (chars "Access-Control-Expose-Headers", EXPOSED_HEADERS)]
    if e.code = some (chars "ECONNABORTED") ∨ hasSub (chars "timeout") e.message then
      { statusCode := 504, headers := errorHeaders,
        body := msgBody (gatewayTimeoutMsg ev.path) }
    else if e.hasRequest then
      { statusCode := 502, headers := errorHeaders,
        body := msgBody (badGatewayMsg ev.path) }
    else
      { statusCode := 500, headers := errorHeaders,
        body := msgBody (internalErrMsg ev.path) }

/-- Complete handler.  The oracle stands for the network: it maps the issued
upstream request to the outcome the HTTP client delivers for it.  A response
that does not depend on the oracle is produced without an upstream call. -/
def handler (cfg : Config) (ev : Event) (oracle : UpstreamRequest → Outcome) : Response :=
  match preDispatch cfg ev with
  | .inl r => r
  | .inr (t, req) => translate cfg ev t (oracle req)

/-- Header lookup on an outbound response. -/
def Response.getHeader (resp : Response) (k : List Char) : Option (List Char) :=
  hGet resp.headers k

example :
    (handler ⟨chars "N", chars "D", true, none⟩
      ⟨chars "GET", chars "/api/network/observations", []⟩
      (fun _ => .response ⟨200, [(chars "content-type", chars "application/json")],
        .json (.arr [.num 1])⟩)).statusCode = 200 := by rfl

example :
    (handler ⟨chars "N", chars "D", true, none⟩
      ⟨chars "GET", chars "/api/unknown/foo", []⟩
      (fun _ => .failure ⟨none, [], false⟩)).statusCode = 404 := by rfl

example :
    (handler ⟨chars "N", chars "D", true, none⟩
      ⟨chars "OPTIONS", chars "/api/anything", []⟩
      (fun _ => .failure ⟨none, [], false⟩)).statusCode = 204 := by rfl

theorem GET_ne_OPTIONS : (chars "GET" = chars "OPTIONS") = False := by decide

theorem db_ne_network : (chars "db" = chars "network") = False := by decide

/-- The first component of the link-copy step extends its input header map. -/
theorem linkAdd_fst (lnk : Option (List Char)) (hs : List (List Char × List Char))
    (exposed : List Char) : ∃ l2, (linkAdd lnk hs exposed).1 = hs ++ l2 := by
  cases lnk with
  | none => exact ⟨[], by simp [linkAdd]⟩
  | some l =>
    by_cases hl : l = []
    · exact ⟨[], by simp [linkAdd, hl]⟩
    · exact ⟨[(chars "Link", l)], by simp [linkAdd, hl]⟩

/-- Appending after an extended base keeps the base as an initial segment. -/
theorem append_shape {α : Type} (x a l2 b : List α) :
    ∃ l, (x ++ a ++ l2) ++ b = x ++ l :=
  ⟨a ++ l2 ++ b, by simp⟩

/-- Every response of the translation stage carries the base CORS headers as
an initial segment of its header map. -/
theorem translate_shape (cfg : Config) (ev : Event) (t : List Char) (o : Outcome) :
    ∃ l, (translate cfg ev t o).headers = BASE_CORS_HEADERS cfg ++ l := by
  cases o with
  | response r =>
    by_cases h4 : r.status ≥ 400
    · simp only [translate, if_pos h4]
      obtain ⟨l2, hl2⟩ := linkAdd_fst (hGet r.headers (chars "link"))
        (BASE_CORS_HEADERS cfg ++ [(chars "Content-Type", chars "application/json")])
        EXPOSED_HEADERS
      rw [hl2]
      exact append_shape _ _ _ _
    · simp only [translate, if_neg h4]
      obtain ⟨l2, hl2⟩ := linkAdd_fst (hGet r.headers (chars "link"))
        (BASE_CORS_HEADERS cfg ++ [(chars "Content-Type", ctValOf r)])
        EXPOSED_HEADERS
      rw [hl2]
      exact append_shape _ _ _ _
  | failure e =>
    simp only [translate]
    split
    · exact ⟨[(chars "Content-Type", chars "application/json"),
        (chars "Access-Control-Expose-Headers", EXPOSED_HEADERS)], rfl⟩
    · split
      · exact ⟨[(chars "Content-Type", chars "application/json"),
          (chars "Access-Control-Expose-Headers", EXPOSED_HEADERS)], rfl⟩
      · exact ⟨[(chars "Content-Type", chars "application/json"),
          (chars "Access-Control-Expose-Headers", EXPOSED_HEADERS)], rfl⟩

/-- Every locally produced response of the routing stage carries the base
CORS headers as an initial segment of its header map. -/
theorem preDispatch_shape (cfg : Config) (ev : Event) :
    ∀ r, preDispatch cfg ev = .inl r →
      ∃ l, r.headers = BASE_CORS_HEADERS cfg ++ l := by
  intro r h
  unfold preDispatch at h
  split at h
  · cases h
    exact ⟨[], (List.append_nil _).symm⟩
  · split at h
    · cases h
      exact ⟨_, rfl⟩
    · split at h
      · cases h
        exact ⟨_, rfl⟩
      · split at h
        · cases h
        · split at h
          · cases h
          · cases h
            exact ⟨_, rfl⟩

/-- Every response of the complete handler carries the base CORS headers as
an initial segment of its header map. -/
theorem handler_shape (cfg : Config) (ev : Event) (oracle : UpstreamRequest → Outcome) :
    ∃ l, (handler cfg ev oracle).headers = BASE_CORS_HEADERS cfg ++ l := by
  unfold handler
  cases hp : preDispatch cfg ev with
  | inl r => exact preDispatch_shape cfg ev r hp
  | inr p => exact translate_shape cfg ev p.1 (oracle p.2)

/-- C1.  Every response of the handler, on every execution path, carries the
Access-Control-Allow-Origin header, whose value is the configured allowed
origin; in development mode that value is the wildcard origin. -/
theorem claim_C1 (cfg : Config) (ev : Event) (oracle : UpstreamRequest → Outcome) :
    (handler cfg ev oracle).getHeader (chars "Access-Control-Allow-Origin") =
      some (ALLOWED_ORIGIN cfg) ∧
    (cfg.isDevelopment = true → ALLOWED_ORIGIN cfg = chars "*") := by
  constructor
  · obtain ⟨l, hl⟩ := handler_shape cfg ev oracle
    rw [Response.getHeader, hl]
    rfl
  · intro h
    simp [ALLOWED_ORIGIN, h]

/-- Closed instance of C1 at a concrete development-mode request. -/
def devCfg : Config :=
  { networkURL := chars "https://network.satnogs.org/api",
    dbURL := chars "https://db.satnogs.org/api",
    isDevelopment := true,
    productionAllowedOrigin := none }

/-- Concrete inbound request used by the witnesses. -/
def evObs : Event :=
  { httpMethod := chars "GET",
    path := chars "/api/network/observations",
    queryStringParameters := [(chars "satellite__norad_cat_id", chars "25544")] }

/-- Oracle standing for an unreachable network. -/
def noNet : UpstreamRequest → Outcome :=
  fun _ => .failure { code := none, message := chars "socket hang up", hasRequest := true }

theorem claim_C1_witness :
    (handler devCfg evObs noNet).getHeader (chars "Access-Control-Allow-Origin") =
      some (chars "*") :=
  (claim_C1 devCfg evObs noNet).1

/-- C8.  An OPTIONS request is answered immediately with status 204, empty
body and exactly the base CORS headers; any method other than GET and
OPTIONS is answered with status 405 and the method-naming JSON body.  Both
responses are independent of the path, the query and the network oracle, so
the decision precedes routing and dispatch. -/
theorem claim_C8 (cfg : Config) (ev : Event) (oracle : UpstreamRequest → Outcome) :
    (ev.httpMethod = chars "OPTIONS" →
      handler cfg ev oracle =
        { statusCode := 204, headers := BASE_CORS_HEADERS cfg, body := .str [] }) ∧
    (ev.httpMethod ≠ chars "OPTIONS" → ev.httpMethod ≠ chars "GET" →
      handler cfg ev oracle =
        { statusCode := 405,
          headers := BASE_CORS_HEADERS cfg ++
            [(chars "Content-Type", chars "application/json")],
          body := msgBody (methodNotAllowedMsg ev.httpMethod) }) := by
  constructor
  · intro h
    simp [handler, preDispatch, h]
  · intro h1 h2
    simp [handler, preDispatch, h1, h2]

theorem claim_C8_witness :
    handler devCfg ⟨chars "OPTIONS", chars "/api/anything", []⟩ noNet =
      { statusCode := 204, headers := BASE_CORS_HEADERS devCfg, body := .str [] } ∧
    handler devCfg ⟨chars "POST", chars "/api/network/observations", []⟩ noNet =
      { statusCode := 405,
        headers := BASE_CORS_HEADERS devCfg ++
          [(chars "Content-Type", chars "application/json")],
        body := msgBody (methodNotAllowedMsg (chars "POST")) } :=
  ⟨(claim_C8 devCfg ⟨chars "OPTIONS", chars "/api/anything", []⟩ noNet).1 rfl,
   (claim_C8 devCfg ⟨chars "POST", chars "/api/network/observations", []⟩ noNet).2
     (by decide) (by decide)⟩

/-- C2.  A GET request whose path has fewer than three nonempty segments or
does not start with the api segment is rejected locally with 404 and the
invalid-structure message; one whose second segment is neither network nor
db is rejected locally with 404 and the unsupported-type message.  In both
cases the response does not depend on the oracle, so no upstream call is
made. -/
theorem claim_C2 (cfg : Config) (ev : Event) (oracle : UpstreamRequest → Outcome)
    (hm : ev.httpMethod = chars "GET") :
    ((pathSegs ev).length < 3 ∨ (pathSegs ev).getD 0 [] ≠ chars "api" →
      handler cfg ev oracle =
        { statusCode := 404,
          headers := BASE_CORS_HEADERS cfg ++
            [(chars "Content-Type", chars "application/json")],
          body := msgBody invalidStructureMsg }) ∧
    (∀ t s2 rest, pathSegs ev = chars "api" :: t :: s2 :: rest →
      t ≠ chars "network" → t ≠ chars "db" →
      handler cfg ev oracle =
        { statusCode := 404,
          headers := BASE_CORS_HEADERS cfg ++
            [(chars "Content-Type", chars "application/json")],
          body := msgBody (unsupportedTypeMsg t) }) := by
  constructor
  · intro h
    unfold handler preDispatch
    rw [hm, if_neg (by decide : ¬(chars "GET" = chars "OPTIONS")),
      if_neg (by decide : ¬(chars "GET" ≠ chars "GET")), if_pos h]
  · intro t s2 rest hseg ht1 ht2
    have h1 : ¬((pathSegs ev).length < 3 ∨ (pathSegs ev).getD 0 [] ≠ chars "api") := by
      rw [hseg]
      simp
    have hat : apiType ev = t := by
      unfold apiType
      rw [hseg]
      rfl
    unfold handler preDispatch
    rw [hm, if_neg (by decide : ¬(chars "GET" = chars "OPTIONS")),
      if_neg (by decide : ¬(chars "GET" ≠ chars "GET")), if_neg h1, hat,
      if_neg ht1, if_neg ht2]

theorem claim_C2_witness :
    handler devCfg ⟨chars "GET", chars "/api/network", []⟩ noNet =
      { statusCode := 404,
        headers := BASE_CORS_HEADERS devCfg ++
          [(chars "Content-Type", chars "application/json")],
        body := msgBody invalidStructureMsg } ∧
    handler devCfg ⟨chars "GET", chars "/api/unknown/foo", []⟩ noNet =
      { statusCode := 404,
        headers := BASE_CORS_HEADERS devCfg ++
          [(chars "Content-Type", chars "application/json")],
        body := msgBody (unsupportedTypeMsg (chars "unknown")) } :=
  ⟨(claim_C2 devCfg ⟨chars "GET", chars "/api/network", []⟩ noNet rfl).1 (by decide),
   (claim_C2 devCfg ⟨chars "GET", chars "/api/unknown/foo", []⟩ noNet rfl).2
     (chars "unknown") (chars "foo") [] (by decide) (by decide) (by decide)⟩

/-- C3.  A GET request routed as api slash t slash more, with t either
network or db, leads to an upstream request whose URL is the configured base
for t followed by a slash and the remaining segments joined by slashes, with
the inbound query parameters forwarded verbatim, the Accept json header and
a 15000 millisecond timeout. -/
theorem claim_C3 (cfg : Config) (ev : Event) (t s2 : List Char) (rest : List (List Char))
    (hm : ev.httpMethod = chars "GET")
    (hseg : pathSegs ev = chars "api" :: t :: s2 :: rest)
    (ht : t = chars "network" ∨ t = chars "db") :
    preDispatch cfg ev = .inr (t,
      { url := (if t = chars "network" then cfg.networkURL else cfg.dbURL) ++
          '/' :: joinSlash (s2 :: rest),
        params := ev.queryStringParameters,
        timeout := 15000,
        headers := [(chars "Accept", chars "application/json")] }) := by
  have h1 : ¬((pathSegs ev).length < 3 ∨ (pathSegs ev).getD 0 [] ≠ chars "api") := by
    rw [hseg]
    simp
  have hat : apiType ev = t := by
    unfold apiType
    rw [hseg]
    rfl
  have hrp : remPath ev = '/' :: joinSlash (s2 :: rest) := by
    unfold remPath
    rw [hseg]
    rfl
  unfold preDispatch
  rw [hm, if_neg (by decide : ¬(chars "GET" = chars "OPTIONS")),
    if_neg (by decide : ¬(chars "GET" ≠ chars "GET")), if_neg h1, hat, hrp]
  rcases ht with rfl | rfl
  · rw [if_pos rfl, if_pos rfl]
  · rw [if_neg (by decide : ¬(chars "db" = chars "network")),
      if_neg (by decide : ¬(chars "db" = chars "network")), if_pos rfl]

theorem claim_C3_witness :
    preDispatch devCfg evObs = .inr (chars "network",
      { url := chars "https://network.satnogs.org/api/observations",
        params := [(chars "satellite__norad_cat_id", chars "25544")],
        timeout := 15000,
        headers := [(chars "Accept", chars "application/json")] }) :=
  claim_C3 devCfg evObs (chars "network") (chars "observations") [] rfl (by decide)
    (Or.inl rfl)

/-- Dispatching requests hand the oracle outcome to the translation stage. -/
theorem handler_dispatch (cfg : Config) (ev : Event) (oracle : UpstreamRequest → Outcome)
    (t : List Char) (req : UpstreamRequest) (hp : preDispatch cfg ev = .inr (t, req)) :
    handler cfg ev oracle = translate cfg ev t (oracle req) := by
  unfold handler
  rw [hp]

/-- One-step unfolding of the translation stage on a response outcome,
holding by definitional reduction. -/
theorem translate_response (cfg : Config) (ev : Event) (t : List Char)
    (r : UpstreamResponse) :
    translate cfg ev t (.response r) =
      (if r.status ≥ 400 then
        { statusCode := r.status,
          headers := (linkAdd (hGet r.headers (chars "link"))
              (BASE_CORS_HEADERS cfg ++
                [(chars "Content-Type", chars "application/json")])
              EXPOSED_HEADERS).1 ++
            [(chars "Access-Control-Expose-Headers",
              (linkAdd (hGet r.headers (chars "link"))
                (BASE_CORS_HEADERS cfg ++
                  [(chars "Content-Type", chars "application/json")])
                EXPOSED_HEADERS).2)],
          body := msgStatusBody (if r.status = 404 then notFound404Msg t
            else genericErrMsg r.status) r.status }
      else
        { statusCode := r.status,
          headers := (linkAdd (hGet r.headers (chars "link"))
              (BASE_CORS_HEADERS cfg ++ [(chars "Content-Type", ctValOf r)])
              EXPOSED_HEADERS).1 ++
            [(chars "Access-Control-Expose-Headers",
              (linkAdd (hGet r.headers (chars "link"))
                (BASE_CORS_HEADERS cfg ++ [(chars "Content-Type", ctValOf r)])
                EXPOSED_HEADERS).2)],
          body := if looksLikeJsonOf r then .str (jsStringify r.data) else r.data }) := rfl

/-- One-step unfolding of the translation stage on a failure outcome. -/
theorem translate_failure (cfg : Config) (ev : Event) (t : List Char) (e : AxiosError) :
    translate cfg ev t (.failure e) =
      (if e.code = some (chars "ECONNABORTED") ∨ hasSub (chars "timeout") e.message then
        { statusCode := 504,
          headers := BASE_CORS_HEADERS cfg ++
            [(chars "Content-Type", chars "application/json"),
             (chars "Access-Control-Expose-Headers", EXPOSED_HEADERS)],
          body := msgBody (gatewayTimeoutMsg ev.path) }
      else if e.hasRequest then
        { statusCode := 502,
          headers := BASE_CORS_HEADERS cfg ++
            [(chars "Content-Type", chars "application/json"),
             (chars "Access-Control-Expose-Headers", EXPOSED_HEADERS)],
          body := msgBody (badGatewayMsg ev.path) }
      else
        { statusCode := 500,
          headers := BASE_CORS_HEADERS cfg ++
            [(chars "Content-Type", chars "application/json"),
             (chars "Access-Control-Expose-Headers", EXPOSED_HEADERS)],
          body := msgBody (internalErrMsg ev.path) }) := rfl

/-- Oracle returning an upstream 401 without specialization in the code. -/
def oracle401 : UpstreamRequest → Outcome :=
  fun _ => .response { status := 401, headers := [], data := .str [] }

/-- C4 counterexample.  At an upstream 401 the synthesized message is the
generic templated one; it does not contain the word Unauthorized, refuting
the claimed 401/403 specialization. -/
theorem claim_C4_counterexample :
    (handler devCfg evObs oracle401).statusCode = 401 ∧
    (handler devCfg evObs oracle401).body =
      .str (stringifyV (.obj [(chars "message",
        .str (chars "Error fetching data from SatNOGS. Status: 401.")),
        (chars "upstreamStatus", .num 401)])) ∧
    hasSub (chars "Unauthorized")
      (chars "Error fetching data from SatNOGS. Status: 401.") = false :=
  ⟨rfl, rfl, rfl⟩

/-- C4 as amended.  For an upstream status of at least 400 the outbound
status is passed through unchanged, the Content-Type is forced to json, and
the body parses to an object with the message string and the numeric
upstreamStatus field, where the message is specialized only for 404 and is
the generic templated string otherwise (401 and 403 included). -/
theorem claim_C4_amended (cfg : Config) (ev : Event) (oracle : UpstreamRequest → Outcome)
    (t : List Char) (req : UpstreamRequest) (r : UpstreamResponse)
    (hp : preDispatch cfg ev = .inr (t, req)) (ho : oracle req = .response r)
    (hs : 400 ≤ r.status) :
    (handler cfg ev oracle).statusCode = r.status ∧
    (handler cfg ev oracle).getHeader (chars "Content-Type") =
      some (chars "application/json") ∧
    ∃ bs, (handler cfg ev oracle).body = .str bs ∧
      parseTop bs = some (.obj
        [(chars "message", .str (if r.status = 404 then notFound404Msg t
            else genericErrMsg r.status)),
         (chars "upstreamStatus", .num (r.status : Int))]) := by
  have hh : handler cfg ev oracle = translate cfg ev t (.response r) := by
    rw [handler_dispatch cfg ev oracle t req hp, ho]
  rw [hh, translate_response, if_pos hs]
  refine ⟨rfl, ?_, ⟨_, rfl, parseTop_stringify _⟩⟩
  obtain ⟨l2, hl2⟩ := linkAdd_fst (hGet r.headers (chars "link"))
    (BASE_CORS_HEADERS cfg ++ [(chars "Content-Type", chars "application/json")])
    EXPOSED_HEADERS
  simp only [Response.getHeader]
  rw [hl2]
  rfl

/-- Upstream response and oracle for the 404 witness. -/
def r404 : UpstreamResponse := { status := 404, headers := [], data := .str [] }

/-- Oracle returning the 404 upstream response. -/
def oracle404 : UpstreamRequest → Outcome := fun _ => .response r404

/-- Upstream request the observation fixture routes to. -/
def reqObs : UpstreamRequest :=
  { url := chars "https://network.satnogs.org/api/observations",
    params := [(chars "satellite__norad_cat_id", chars "25544")],
    timeout := 15000,
    headers := [(chars "Accept", chars "application/json")] }

theorem claim_C4_witness :
    (handler devCfg evObs oracle404).statusCode = 404 ∧
    (handler devCfg evObs oracle404).getHeader (chars "Content-Type") =
      some (chars "application/json") :=
  ⟨(claim_C4_amended devCfg evObs oracle404 (chars "network") reqObs r404
      rfl rfl (by decide)).1,
   (claim_C4_amended devCfg evObs oracle404 (chars "network") reqObs r404
      rfl rfl (by decide)).2.1⟩

/-- C5.  Transport failures are mapped by subtype: a timeout-classified
failure gives 504 with the timeout message containing the inbound path, a
request-sent failure gives 502, anything else gives 500; and a delivered
upstream response, whatever its status in 100..599, has its status passed
through rather than entering any failure branch. -/
theorem claim_C5 (cfg : Config) (ev : Event) (oracle : UpstreamRequest → Outcome)
    (t : List Char) (req : UpstreamRequest)
    (hp : preDispatch cfg ev = .inr (t, req)) :
    (∀ e, oracle req = .failure e →
      ((e.code = some (chars "ECONNABORTED") ∨ hasSub (chars "timeout") e.message = true) →
        handler cfg ev oracle =
          { statusCode := 504,
            headers := BASE_CORS_HEADERS cfg ++
              [(chars "Content-Type", chars "application/json"),
               (chars "Access-Control-Expose-Headers", EXPOSED_HEADERS)],
            body := msgBody (gatewayTimeoutMsg ev.path) }) ∧
      (¬(e.code = some (chars "ECONNABORTED") ∨ hasSub (chars "timeout") e.message = true) →
        e.hasRequest = true →
        handler cfg ev oracle =
          { statusCode := 502,
            headers := BASE_CORS_HEADERS cfg ++
              [(chars "Content-Type", chars "application/json"),
               (chars "Access-Control-Expose-Headers", EXPOSED_HEADERS)],
            body := msgBody (badGatewayMsg ev.path) }) ∧
      (¬(e.code = some (chars "ECONNABORTED") ∨ hasSub (chars "timeout") e.message = true) →
        e.hasRequest = false →
        handler cfg ev oracle =
          { statusCode := 500,
            headers := BASE_CORS_HEADERS cfg ++
              [(chars "Content-Type", chars "application/json"),
               (chars "Access-Control-Expose-Headers", EXPOSED_HEADERS)],
            body := msgBody (internalErrMsg ev.path) })) ∧
    (∀ r, oracle req = .response r → 100 ≤ r.status → r.status ≤ 599 →
      (handler cfg ev oracle).statusCode = r.status) := by
  constructor
  · intro e ho
    have hh : handler cfg ev oracle = translate cfg ev t (.failure e) := by
      rw [handler_dispatch cfg ev oracle t req hp, ho]
    refine ⟨?_, ?_, ?_⟩
    · intro hc
      rw [hh, translate_failure, if_pos hc]
    · intro hc hr
      rw [hh, translate_failure, if_neg hc, if_pos hr]
    · intro hc hr
      rw [hh, translate_failure, if_neg hc, if_neg (by simp [hr])]
  · intro r ho h1 h2
    have hh : handler cfg ev oracle = translate cfg ev t (.response r) := by
      rw [handler_dispatch cfg ev oracle t req hp, ho]
    rw [hh, translate_response]
    by_cases h4 : r.status ≥ 400
    · rw [if_pos h4]
    · rw [if_neg h4]

/-- Timeout-classified transport failure fixture. -/
def eTimeout : AxiosError :=
  { code := some (chars "ECONNABORTED"),
    message := chars "timeout of 15000ms exceeded",
    hasRequest := false }

/-- Oracle raising the timeout failure. -/
def oracleTimeout : UpstreamRequest → Outcome := fun _ => .failure eTimeout

theorem claim_C5_witness :
    handler devCfg evObs oracleTimeout =
      { statusCode := 504,
        headers := BASE_CORS_HEADERS devCfg ++
          [(chars "Content-Type", chars "application/json"),
           (chars "Access-Control-Expose-Headers", EXPOSED_HEADERS)],
        body := msgBody (gatewayTimeoutMsg (chars "/api/network/observations")) } :=
  ((claim_C5 devCfg evObs oracleTimeout (chars "network") reqObs rfl).1
    eTimeout rfl).1 (Or.inl rfl)

/-- C6.  A successful upstream response with a json content type has its
parsed JSON value survive the translation: the outbound body parses back to
the same value, with the status and content type passed through; a response
with a truthy non-json content type has its body passed through unchanged
with the upstream content type preserved; a response without a content type
has its body passed through untouched with the octet-stream fallback. -/
theorem claim_C6 (cfg : Config) (ev : Event) (oracle : UpstreamRequest → Outcome)
    (t : List Char) (req : UpstreamRequest) (r : UpstreamResponse)
    (hp : preDispatch cfg ev = .inr (t, req)) (ho : oracle req = .response r)
    (hs : r.status < 400) :
    (∀ ct v, hGet r.headers (chars "content-type") = some ct →
      hasSub (chars "application/json") ct = true → r.data = .json v →
      (handler cfg ev oracle).statusCode = r.status ∧
      (handler cfg ev oracle).getHeader (chars "Content-Type") = some ct ∧
      ∃ bs, (handler cfg ev oracle).body = .str bs ∧ parseTop bs = some v) ∧
    (∀ ct, hGet r.headers (chars "content-type") = some ct → ct ≠ [] →
      hasSub (chars "application/json") ct = false →
      (handler cfg ev oracle).statusCode = r.status ∧
      (handler cfg ev oracle).body = r.data ∧
      (handler cfg ev oracle).getHeader (chars "Content-Type") = some ct) ∧
    (hGet r.headers (chars "content-type") = none →
      (handler cfg ev oracle).body = r.data ∧
      (handler cfg ev oracle).getHeader (chars "Content-Type") =
        some (chars "application/octet-stream")) := by
  have hh : handler cfg ev oracle = translate cfg ev t (.response r) := by
    rw [handler_dispatch cfg ev oracle t req hp, ho]
  have h4 : ¬r.status ≥ 400 := by omega
  refine ⟨?_, ?_, ?_⟩
  · intro ct v hct hjson hdata
    have hne : ct ≠ [] := by
      intro e
      rw [e] at hjson
      exact absurd hjson (by decide)
    have hctv : ctValOf r = ct := by
      unfold ctValOf
      rw [hct]
      exact if_neg hne
    have hllj : looksLikeJsonOf r = true := by
      unfold looksLikeJsonOf
      rw [hct]
      show (if ct = [] then false else hasSub (chars "application/json") ct) = true
      rw [if_neg hne]
      exact hjson
    rw [hh, translate_response, if_neg h4]
    refine ⟨rfl, ?_, ?_⟩
    · obtain ⟨l2, hl2⟩ := linkAdd_fst (hGet r.headers (chars "link"))
        (BASE_CORS_HEADERS cfg ++ [(chars "Content-Type", ctValOf r)]) EXPOSED_HEADERS
      simp only [Response.getHeader]
      rw [hl2, hctv]
      rfl
    · refine ⟨stringifyV v, ?_, parseTop_stringify v⟩
      show (if looksLikeJsonOf r then JsVal.str (jsStringify r.data) else r.data) =
        JsVal.str (stringifyV v)
      rw [hllj, if_pos rfl, hdata]
      rfl
  · intro ct hct hne hnj
    have hctv : ctValOf r = ct := by
      unfold ctValOf
      rw [hct]
      exact if_neg hne
    have hllj : looksLikeJsonOf r = false := by
      unfold looksLikeJsonOf
      rw [hct]
      show (if ct = [] then false else hasSub (chars "application/json") ct) = false
      rw [if_neg hne]
      exact hnj
    rw [hh, translate_response, if_neg h4]
    refine ⟨rfl, ?_, ?_⟩
    · show (if looksLikeJsonOf r then JsVal.str (jsStringify r.data) else r.data) = r.data
      rw [hllj]
      simp
    · obtain ⟨l2, hl2⟩ := linkAdd_fst (hGet r.headers (chars "link"))
        (BASE_CORS_HEADERS cfg ++ [(chars "Content-Type", ctValOf r)]) EXPOSED_HEADERS
      simp only [Response.getHeader]
      rw [hl2, hctv]
      rfl
  · intro hct
    have hctv : ctValOf r = chars "application/octet-stream" := by
      unfold ctValOf
      rw [hct]
    have hllj : looksLikeJsonOf r = false := by
      unfold looksLikeJsonOf
      rw [hct]
    rw [hh, translate_response, if_neg h4]
    constructor
    · show (if looksLikeJsonOf r then JsVal.str (jsStringify r.data) else r.data) = r.data
      rw [hllj]
      simp
    · obtain ⟨l2, hl2⟩ := linkAdd_fst (hGet r.headers (chars "link"))
        (BASE_CORS_HEADERS cfg ++ [(chars "Content-Type", ctValOf r)]) EXPOSED_HEADERS
      simp only [Response.getHeader]
      rw [hl2, hctv]
      rfl

/-- Successful JSON upstream response fixture. -/
def rJson : UpstreamResponse :=
  { status := 200,
    headers := [(chars "content-type", chars "application/json")],
    data := .json (.arr [.num 1, .num 2]) }

/-- Oracle returning the JSON response. -/
def oracleJson : UpstreamRequest → Outcome := fun _ => .response rJson

/-- Successful non-JSON upstream response fixture. -/
def rHtml : UpstreamResponse :=
  { status := 200,
    headers := [(chars "content-type", chars "text/html")],
    data := .str (chars "hello") }

/-- Oracle returning the non-JSON response. -/
def oracleHtml : UpstreamRequest → Outcome := fun _ => .response rHtml

theorem claim_C6_witness :
    ((handler devCfg evObs oracleJson).statusCode = 200 ∧
     (handler devCfg evObs oracleJson).getHeader (chars "Content-Type") =
       some (chars "application/json") ∧
     ∃ bs, (handler devCfg evObs oracleJson).body = .str bs ∧
       parseTop bs = some (.arr [.num 1, .num 2])) ∧
    ((handler devCfg evObs oracleHtml).statusCode = 200 ∧
     (handler devCfg evObs oracleHtml).body = .str (chars "hello") ∧
     (handler devCfg evObs oracleHtml).getHeader (chars "Content-Type") =
       some (chars "text/html")) :=
  ⟨(claim_C6 devCfg evObs oracleJson (chars "network") reqObs rJson
     rfl rfl (by decide)).1 (chars "application/json") (.arr [.num 1, .num 2]) rfl rfl rfl,
   (claim_C6 devCfg evObs oracleHtml (chars "network") reqObs rHtml
     rfl rfl (by decide)).2.1 (chars "text/html") rfl (by decide) rfl⟩

/-- C7.  On a successful upstream response a truthy Link header is copied
unchanged and its name appended to the exposed headers; with no Link header
the outbound response has no Link header and the exposed-header list is the
default, which does not mention Link. -/
theorem claim_C7 (cfg : Config) (ev : Event) (oracle : UpstreamRequest → Outcome)
    (t : List Char) (req : UpstreamRequest) (r : UpstreamResponse)
    (hp : preDispatch cfg ev = .inr (t, req)) (ho : oracle req = .response r)
    (hs : r.status < 400) :
    (∀ l, hGet r.headers (chars "link") = some l → l ≠ [] →
      (handler cfg ev oracle).getHeader (chars "Link") = some l ∧
      (handler cfg ev oracle).getHeader (chars "Access-Control-Expose-Headers") =
        some (EXPOSED_HEADERS ++ chars ", Link")) ∧
    (hGet r.headers (chars "link") = none →
      (handler cfg ev oracle).getHeader (chars "Link") = none ∧
      (handler cfg ev oracle).getHeader (chars "Access-Control-Expose-Headers") =
        some EXPOSED_HEADERS ∧
      hasSub (chars "Link") EXPOSED_HEADERS = false) := by
  have hh : handler cfg ev oracle = translate cfg ev t (.response r) := by
    rw [handler_dispatch cfg ev oracle t req hp, ho]
  have h4 : ¬r.status ≥ 400 := by omega
  constructor
  · intro l hl hne
    have hla : linkAdd (hGet r.headers (chars "link"))
        (BASE_CORS_HEADERS cfg ++ [(chars "Content-Type", ctValOf r)]) EXPOSED_HEADERS =
        (BASE_CORS_HEADERS cfg ++ [(chars "Content-Type", ctValOf r)] ++
          [(chars "Link", l)], EXPOSED_HEADERS ++ chars ", Link") := by
      rw [hl]
      simp [linkAdd, hne]
    rw [hh, translate_response, if_neg h4]
    constructor
    · simp only [Response.getHeader]
      rw [hla]
      rfl
    · simp only [Response.getHeader]
      rw [hla]
      rfl
  · intro hl
    have hla : linkAdd (hGet r.headers (chars "link"))
        (BASE_CORS_HEADERS cfg ++ [(chars "Content-Type", ctValOf r)]) EXPOSED_HEADERS =
        (BASE_CORS_HEADERS cfg ++ [(chars "Content-Type", ctValOf r)],
          EXPOSED_HEADERS) := by
      rw [hl]
      rfl
    rw [hh, translate_response, if_neg h4]
    refine ⟨?_, ?_, rfl⟩
    · simp only [Response.getHeader]
      rw [hla]
      rfl
    · simp only [Response.getHeader]
      rw [hla]
      rfl

/-- Successful response fixture carrying a pagination Link header. -/
def rLink : UpstreamResponse :=
  { status := 200,
    headers := [(chars "content-type", chars "application/json"),
      (chars "link", chars "<https://x/next>; rel=next")],
    data := .json .null }

/-- Oracle returning the Link-carrying response. -/
def oracleLink : UpstreamRequest → Outcome := fun _ => .response rLink

theorem claim_C7_witness :
    (handler devCfg evObs oracleLink).getHeader (chars "Link") =
      some (chars "<https://x/next>; rel=next") ∧
    (handler devCfg evObs oracleLink).getHeader
      (chars "Access-Control-Expose-Headers") =
      some (chars "Content-Type, Content-Length, Link") :=
  (claim_C7 devCfg evObs oracleLink (chars "network") reqObs rLink
    rfl rfl (by decide)).1 (chars "<https://x/next>; rel=next") rfl (by decide)

/-- C10.  On an upstream error response a truthy Link header is still copied
unchanged into the synthesized error response and its name appended to the
exposed headers. -/
theorem claim_C10 (cfg : Config) (ev : Event) (oracle : UpstreamRequest → Outcome)
    (t : List Char) (req : UpstreamRequest) (r : UpstreamResponse) (l : List Char)
    (hp : preDispatch cfg ev = .inr (t, req)) (ho : oracle req = .response r)
    (hs : 400 ≤ r.status)
    (hl : hGet r.headers (chars "link") = some l) (hne : l ≠ []) :
    (handler cfg ev oracle).getHeader (chars "Link") = some l ∧
    (handler cfg ev oracle).getHeader (chars "Access-Control-Expose-Headers") =
      some (EXPOSED_HEADERS ++ chars ", Link") := by
  have hh : handler cfg ev oracle = translate cfg ev t (.response r) := by
    rw [handler_dispatch cfg ev oracle t req hp, ho]
  have hla : linkAdd (hGet r.headers (chars "link"))
      (BASE_CORS_HEADERS cfg ++ [(chars "Content-Type", chars "application/json")])
      EXPOSED_HEADERS =
      (BASE_CORS_HEADERS cfg ++ [(chars "Content-Type", chars "application/json")] ++
        [(chars "Link", l)], EXPOSED_HEADERS ++ chars ", Link") := by
    rw [hl]
    simp [linkAdd, hne]
  rw [hh, translate_response, if_pos hs]
  constructor
  · simp only [Response.getHeader]
    rw [hla]
    rfl
  · simp only [Response.getHeader]
    rw [hla]
    rfl

/-- Upstream 500 response fixture carrying a Link header. -/
def rErrLink : UpstreamResponse :=
  { status := 500,
    headers := [(chars "link", chars "<https://x/next>; rel=next")],
    data := .str [] }

/-- Oracle returning the Link-carrying error response. -/
def oracleErrLink : UpstreamRequest → Outcome := fun _ => .response rErrLink

theorem claim_C10_witness :
    (handler devCfg evObs oracleErrLink).getHeader (chars "Link") =
      some (chars "<https://x/next>; rel=next") ∧
    (handler devCfg evObs oracleErrLink).getHeader
      (chars "Access-Control-Expose-Headers") =
      some (chars "Content-Type, Content-Length, Link") :=
  claim_C10 devCfg evObs oracleErrLink (chars "network") reqObs rErrLink
    (chars "<https://x/next>; rel=next") rfl rfl (by decide) rfl (by decide)

/-- Header maps ending in a given key always resolve that key. -/
theorem hGet_append_last (X : List (List Char × List Char)) (k v : List Char) :
    ∃ val, hGet (X ++ [(k, v)]) k = some val := by
  induction X with
  | nil =>
    refine ⟨v, ?_⟩
    unfold hGet
    simp
  | cons p X ih =>
    cases hb : (p.1 == k) with
    | true =>
      refine ⟨p.2, ?_⟩
      unfold hGet
      rw [List.cons_append]
      simp [List.find?_cons, hb]
    | false =>
      obtain ⟨val, hval⟩ := ih
      refine ⟨val, ?_⟩
      unfold hGet at hval ⊢
      rw [List.cons_append]
      simp only [List.find?_cons, hb]
      exact hval

/-- Every translated outcome carries the expose-header key. -/
theorem translate_ACEH (cfg : Config) (ev : Event) (t : List Char) (o : Outcome) :
    ∃ val, hGet (translate cfg ev t o).headers
      (chars "Access-Control-Expose-Headers") = some val := by
  cases o with
  | response r =>
    by_cases h4 : r.status ≥ 400
    · rw [translate_response, if_pos h4]
      exact hGet_append_last _ _ _
    · rw [translate_response, if_neg h4]
      exact hGet_append_last _ _ _
  | failure e =>
    rw [translate_failure]
    split
    · exact ⟨EXPOSED_HEADERS, rfl⟩
    · split
      · exact ⟨EXPOSED_HEADERS, rfl⟩
      · exact ⟨EXPOSED_HEADERS, rfl⟩

/-- C9 counterexample.  The locally generated 405 method rejection carries
no Access-Control-Expose-Headers header, refuting the claim that every
non-preflight response does. -/
theorem claim_C9_counterexample :
    (handler devCfg
      { httpMethod := chars "POST",
        path := chars "/api/network/observations",
        queryStringParameters := [] } noNet).getHeader
      (chars "Access-Control-Expose-Headers") = none := rfl

/-- C9 as amended.  Access-Control-Expose-Headers is present on exactly the
responses produced after dispatch (status pass-through, success and
transport failure); the preflight response and the locally generated 405
and 404 rejections do not carry it. -/
theorem claim_C9_amended (cfg : Config) (ev : Event) (oracle : UpstreamRequest → Outcome) :
    (∀ t req, preDispatch cfg ev = .inr (t, req) →
      ∃ val, (handler cfg ev oracle).getHeader
        (chars "Access-Control-Expose-Headers") = some val) ∧
    (∀ r, preDispatch cfg ev = .inl r →
      (handler cfg ev oracle).getHeader
        (chars "Access-Control-Expose-Headers") = none) := by
  constructor
  · intro t req hp
    rw [handler_dispatch cfg ev oracle t req hp]
    exact translate_ACEH cfg ev t (oracle req)
  · intro r hp
    have hh : handler cfg ev oracle = r := by
      unfold handler
      rw [hp]
    rw [hh]
    unfold preDispatch at hp
    split at hp
    · cases hp
      rfl
    · split at hp
      · cases hp
        rfl
      · split at hp
        · cases hp
          rfl
        · split at hp
          · cases hp
          · split at hp
            · cases hp
            · cases hp
              rfl

/-- Non-GET inbound request fixture. -/
def evPost : Event :=
  { httpMethod := chars "POST",
    path := chars "/api/network/observations",
    queryStringParameters := [] }

theorem claim_C9_witness :
    (∃ val, (handler devCfg evObs oracleJson).getHeader
      (chars "Access-Control-Expose-Headers") = some val) ∧
    (handler devCfg evPost oracleJson).getHeader
      (chars "Access-Control-Expose-Headers") = none :=
  ⟨(claim_C9_amended devCfg evObs oracleJson).1 (chars "network") reqObs rfl,
   (claim_C9_amended devCfg evPost oracleJson).2
     { statusCode := 405,
       headers := BASE_CORS_HEADERS devCfg ++
         [(chars "Content-Type", chars "application/json")],
       body := msgBody (methodNotAllowedMsg (chars "POST")) } rfl⟩

end SatnogsProxy
